import Mathlib

/-!
Verification of the unsw-course-scraper core data-processing pipeline
(`handbook/parser.py`, `handbook/loader.py`, `handbook/writer.py`)
via a shallow embedding in Lean.

Python values parsed from JSON are modelled by `PyVal` (JSON numbers are
modelled as integers, the only numeric form the claims exercise; a Python
`bool` is an `int` subtype, so the coercion routes it through the numeric
branch).  A payload string is modelled as `Option PyVal`: `none` stands
for a string `json.loads` rejects (`json.JSONDecodeError`), `some v` for
the parsed value.  Files are modelled as `Option (Option PyVal)`: `none`
is an absent file, `some none` a file with invalid JSON.
-/

/-- Python values produced by `json.loads`. -/
inductive PyVal where
  | pnull : PyVal
  | pbool (b : Bool) : PyVal
  | pint (n : Int) : PyVal
  | pstr (s : String) : PyVal
  | plist (xs : List PyVal) : PyVal
  | pdict (kvs : List (String × PyVal)) : PyVal

/-- The ASCII whitespace characters removed by Python `str.strip()`. -/
def isPySpace (c : Char) : Bool :=
  c == ' ' || c == '\t' || c == '\n' || c == '\r' || c == '\x0b' || c == '\x0c'

/-- Python `str.strip()`: drop leading and trailing whitespace. -/
def pyStrip (s : String) : String :=
  String.mk (((s.data.dropWhile isPySpace).reverse.dropWhile isPySpace).reverse)

/-- Python `str.upper()` (ASCII letters, as used on course codes). -/
def pyUpper (s : String) : String :=
  String.mk (s.data.map Char.toUpper)

mutual

/-- Python `str()`/`repr()` of a parsed JSON value (containers use `repr`
of their elements; string escaping inside `repr` is not modelled beyond
quoting, which no claim depends on). -/
def pyRepr : PyVal → String
  | .pnull => "None"
  | .pbool b => if b then "True" else "False"
  | .pint n => toString n
  | .pstr s => "'" ++ s ++ "'"
  | .plist xs => "[" ++ pyReprList xs ++ "]"
  | .pdict kvs => "\x7b" ++ pyReprDict kvs ++ "\x7d"

/-- Comma-separated `repr`s of list elements. -/
def pyReprList : List PyVal → String
  | [] => ""
  | [x] => pyRepr x
  | x :: y :: xs => pyRepr x ++ ", " ++ pyReprList (y :: xs)

/-- Comma-separated `repr`s of dict entries. -/
def pyReprDict : List (String × PyVal) → String
  | [] => ""
  | [(k, v)] => "'" ++ k ++ "': " ++ pyRepr v
  | (k, v) :: e :: kvs => "'" ++ k ++ "': " ++ pyRepr v ++ ", " ++ pyReprDict (e :: kvs)

end

/-- Python `dict.get`: on duplicate keys in the source JSON text,
`json.loads` keeps the last value, so lookup returns the last binding. -/
def dget (kvs : List (String × PyVal)) (k : String) : Option PyVal :=
  kvs.foldl (fun acc p => if p.1 = k then some p.2 else acc) none

/-- `CourseRecord` (`parser.py`): ten named text fields. -/
structure CourseRecord where
  code : String
  title : String
  uoc : String
  overview : String
  conditions_for_enrolment : String
  faculty : String
  study_level : String
  offering_terms : String
  field_of_education : String
  school : String
deriving DecidableEq, Repr

/-- `CourseRecord.model_fields.keys()`: the fixed schema field order. -/
def fieldOrder : List String :=
  ["code", "title", "uoc", "overview", "conditions_for_enrolment",
   "faculty", "study_level", "offering_terms", "field_of_education", "school"]

/-- Field access by schema name (as `model_dump()` exposes it). -/
def getField (r : CourseRecord) : String → String
  | "code" => r.code
  | "title" => r.title
  | "uoc" => r.uoc
  | "overview" => r.overview
  | "conditions_for_enrolment" => r.conditions_for_enrolment
  | "faculty" => r.faculty
  | "study_level" => r.study_level
  | "offering_terms" => r.offering_terms
  | "field_of_education" => r.field_of_education
  | "school" => r.school
  | _ => ""

/-- `CourseParser._coerce_to_string`.  `None → ""`; `isinstance(value,
(int, float))` is true of Python booleans (a subtype of `int`), and
`str(True) = "True"`; strings are stripped; anything else is `str(value)`. -/
def _coerce_to_string : PyVal → String
  | .pnull => ""
  | .pbool b => if b then "True" else "False"
  | .pint n => toString n
  | .pstr s => pyStrip s
  | .plist xs => pyRepr (.plist xs)
  | .pdict kvs => pyRepr (.pdict kvs)

/-- One field of `CourseParser._apply_placeholder`: coerce the raw value
(`item.get` yields `None` when the key is absent) and substitute the
placeholder for an empty result. -/
def fillField (ph : String) (kvs : List (String × PyVal)) (f : String) : String :=
  let text := _coerce_to_string ((dget kvs f).getD .pnull)
  if text = "" then ph else text

/-- `CourseParser._apply_placeholder` followed by `CourseRecord(**filled)`:
all ten values are strings, so pydantic validation always succeeds. -/
def _apply_placeholder (ph : String) (kvs : List (String × PyVal)) : CourseRecord :=
  ⟨fillField ph kvs "code", fillField ph kvs "title", fillField ph kvs "uoc",
   fillField ph kvs "overview", fillField ph kvs "conditions_for_enrolment",
   fillField ph kvs "faculty", fillField ph kvs "study_level",
   fillField ph kvs "offering_terms", fillField ph kvs "field_of_education",
   fillField ph kvs "school"⟩

/-- The record loop of `CourseParser.parse_payload`: non-dict entries are
skipped, dict entries are normalised. -/
def recordsFromItems (ph : String) (items : List PyVal) : List CourseRecord :=
  items.filterMap (fun it =>
    match it with
    | .pdict kvs => some (_apply_placeholder ph kvs)
    | _ => none)

/-- `CourseParser.parse_payload`.  The raw string is modelled as
`Option PyVal`: `none` is a string `json.loads` rejects. -/
def parse_payload (ph : String) (raw : Option PyVal) : List CourseRecord :=
  match raw with
  | none => []
  | some (.pdict kvs) => recordsFromItems ph [.pdict kvs]
  | some (.plist xs) => recordsFromItems ph xs
  | some _ => []

/-!
## Course list loader (`loader.py`, `CourseList.from_json`)

The error taxonomy of the spec is an inductive type.  In the source,
`NotFoundError` is `FileNotFoundError`; `ParseError`, `FormatError` and
`ValidationError` are the three `ValueError`s (invalid JSON, wrong shape,
no usable codes).  `attrError` models the uncaught `AttributeError` that
`payload.get(...)` raises when the parsed document is not a dict.
-/

/-- Errors observable from `CourseList.from_json`. -/
inductive LoadErr where
  | notFound : LoadErr
  | parseError : LoadErr
  | formatError : LoadErr
  | validationError : LoadErr
  | attrError : LoadErr
deriving DecidableEq, Repr

/-- Trim and upper-case one course code (`code.strip().upper()`). -/
def normCode (s : String) : String := pyUpper (pyStrip s)

/-- The `cleaned` loop of `from_json`: skip entries that are not
non-blank strings, normalise, and append only codes not already kept. -/
def cleanLoop (acc : List String) : List PyVal → List String
  | [] => acc
  | v :: vs =>
    match v with
    | .pstr s =>
      if pyStrip s = "" then cleanLoop acc vs
      else
        let u := normCode s
        if u ∈ acc then cleanLoop acc vs else cleanLoop (acc ++ [u]) vs
    | _ => cleanLoop acc vs

/-- Spec-side first-occurrence deduplication: keep each string's first
occurrence, in first-seen order. -/
def firstDedup : List String → List String
  | [] => []
  | x :: xs => x :: (firstDedup xs).filter (fun y => y ≠ x)

/-- The normalised codes surviving the filter, before deduplication:
each array entry that is a non-blank string, trimmed and upper-cased. -/
def goodCodes (xs : List PyVal) : List String :=
  xs.filterMap (fun v =>
    match v with
    | .pstr s => if pyStrip s = "" then none else some (normCode s)
    | _ => none)

/-- Iterating a Python dict yields its distinct keys in first-insertion
order (`json.loads` keeps the first position of a duplicated key). -/
def pyDictKeys (kvs : List (String × PyVal)) : List String :=
  firstDedup (kvs.map Prod.fst)

/-- `CourseList.from_json`, on a file modelled as `Option (Option PyVal)`
(`none` = absent file, `some none` = invalid JSON, `some (some v)` = the
parsed document).  `payload.get` is only defined on dicts: any other
top-level value raises `AttributeError`.  The `isinstance(raw_codes,
Iterable)` test accepts lists and dicts (iterated by keys) and rejects
`None`, numbers and booleans; strings are rejected explicitly. -/
def from_json (file : Option (Option PyVal)) : Except LoadErr (List String) :=
  match file with
  | none => .error .notFound
  | some none => .error .parseError
  | some (some payload) =>
    match payload with
    | .pdict kvs =>
      match dget kvs "course_codes" with
      | some (.plist xs) =>
        let cleaned := cleanLoop [] xs
        if cleaned = [] then .error .validationError else .ok cleaned
      | some (.pdict kv2) =>
        let cleaned := cleanLoop [] ((pyDictKeys kv2).map .pstr)
        if cleaned = [] then .error .validationError else .ok cleaned
      | _ => .error .formatError
    | _ => .error .attrError

/-!
## URL builder (`loader.py`, `CourseList.build_urls`)

A template string is modelled as a list of segments: literal text or one
of the three named placeholders `str.format` receives (`level`, `year`,
`code`).  Strings are modelled as `List Char` here so that list lemmas
apply directly; a template that references an unknown placeholder (the
`TemplateError` case) is outside this type.
-/

/-- One segment of a `str.format` template with fields
`level`, `year`, `code`. -/
inductive Seg where
  | lit (s : List Char) : Seg
  | level : Seg
  | year : Seg
  | code : Seg
deriving DecidableEq, Repr

/-- `template.format(level=lv, year=yr, code=c)`: substitute each
placeholder and concatenate. -/
def renderTemplate (t : List Seg) (lv yr c : List Char) : List Char :=
  match t with
  | [] => []
  | .lit s :: rest => s ++ renderTemplate rest lv yr c
  | .level :: rest => lv ++ renderTemplate rest lv yr c
  | .year :: rest => yr ++ renderTemplate rest lv yr c
  | .code :: rest => c ++ renderTemplate rest lv yr c

/-- `CourseList.build_urls`: one URL per code, in code-list order. -/
def build_urls (t : List Seg) (lv yr : List Char) (codes : List (List Char)) :
    List (List Char) :=
  codes.map (renderTemplate t lv yr)

/-!
## Writer (`writer.py`, `CourseWriter`)
-/

/-- `CourseWriter.write_csv`, modelled as the rows it writes: the header
(the fixed field order) followed by one row per record, each row the
record's field values in field order.  The empty-batch guard runs before
anything touches the filesystem (`path.parent.mkdir` comes after it), so
on error nothing is created; on success the destination path is returned
with the rows. -/
def write_csv (records : List CourseRecord) (destination : String) :
    Except String (String × List (List String)) :=
  if records = [] then .error "No course records were provided for export"
  else .ok (destination,
    fieldOrder :: records.map (fun r => fieldOrder.map (getField r)))

/-- Per-field entry of the completeness report. -/
structure FieldStat where
  present : Nat
  missing : Nat
  percent_present : ℚ
deriving DecidableEq, Repr

/-- The completeness report: total count plus per-field statistics in
schema field order. -/
structure Report where
  total_courses : Nat
  fields : List (String × FieldStat)
deriving DecidableEq, Repr

/-- Python `round(x, 1)` on an exact rational: round half to even at one
decimal place, computed on the numerator and denominator (for `x = q*10`
with reduced numerator `num` and positive denominator `den`, the floor is
`num.ediv den` and the fractional part compares to `1/2` as `2*rem` to
`den`).  The source computes with binary floats; the claims state the
same formula, so both sides of each theorem use this model. -/
def pyRound1 (q : ℚ) : ℚ :=
  let x : ℚ := q * 10
  let f : ℤ := Int.ediv x.num (x.den : ℤ)
  let rem : ℤ := x.num - f * (x.den : ℤ)
  let n : ℤ :=
    if 2 * rem < (x.den : ℤ) then f
    else if (x.den : ℤ) < 2 * rem then f + 1
    else if f % 2 = 0 then f else f + 1
  (n : ℚ) / 10

/-- The `counters[key]` tally: how many records have a non-blank value in
field `key` (the code increments for `isinstance(value, str) and
value.strip()`; every field is a string here). -/
def countPresent (records : List CourseRecord) (key : String) : Nat :=
  (records.filter (fun r => pyStrip (getField r key) ≠ "")).length

/-- `CourseWriter.build_completeness_report`: for an empty batch, total 0
and no per-field entries; otherwise one entry per schema field, in schema
order, with the present/missing counts and the rounded percentage. -/
def build_completeness_report (records : List CourseRecord) : Report :=
  let total := records.length
  if total = 0 then ⟨0, []⟩
  else
    ⟨total,
     fieldOrder.map (fun key =>
       let present := countPresent records key
       (key, ⟨present, total - present,
              pyRound1 ((present : ℚ) / (total : ℚ) * 100)⟩))⟩

/-- A record with every field equal to the default placeholder text
(the normaliser's output for an empty payload object). -/
def sampleRecord : CourseRecord :=
  ⟨"Not specified", "Not specified", "Not specified", "Not specified",
   "Not specified", "Not specified", "Not specified", "Not specified",
   "Not specified", "Not specified"⟩

/-! ## Helper lemmas -/

lemma toDigitsCore_cons_ne_nil (b f n : Nat) (c : Char) (tl : List Char) :
    Nat.toDigitsCore b f n (c :: tl) ≠ [] := by
  intro h
  have h2 := Nat.toDigitsCore_lens_eq b f n c tl
  rw [h] at h2
  simp at h2

lemma toDigits_ne_nil (b n : Nat) : Nat.toDigits b n ≠ [] := by
  unfold Nat.toDigits Nat.toDigitsCore
  by_cases h : n / b = 0
  · simp [h]
  · simp only [h, if_false]
    exact toDigitsCore_cons_ne_nil b n (n / b) _ []

lemma natRepr_ne_empty (n : Nat) : Nat.repr n ≠ "" := by
  unfold Nat.repr
  intro h
  apply toDigits_ne_nil 10 n
  have h2 := congrArg String.data h
  simpa [List.asString] using h2

lemma toString_int_ne_empty (n : Int) : toString n ≠ "" := by
  cases n with
  | ofNat m => exact natRepr_ne_empty m
  | negSucc m =>
    intro h
    have h2 : ("-" ++ toString (Nat.succ m)).data = ("" : String).data :=
      congrArg String.data h
    rw [String.data_append] at h2
    simp at h2

lemma pyRepr_plist_ne_empty (xs : List PyVal) : pyRepr (.plist xs) ≠ "" := by
  rw [pyRepr]
  intro h
  have h2 := congrArg String.data h
  rw [String.data_append, String.data_append] at h2
  simp at h2

lemma pyRepr_pdict_ne_empty (kvs : List (String × PyVal)) : pyRepr (.pdict kvs) ≠ "" := by
  rw [pyRepr]
  intro h
  have h2 := congrArg String.data h
  rw [String.data_append, String.data_append] at h2
  simp at h2

lemma getField_apply (ph : String) (kvs : List (String × PyVal)) (f : String)
    (hf : f ∈ fieldOrder) :
    getField (_apply_placeholder ph kvs) f = fillField ph kvs f := by
  simp only [fieldOrder, List.mem_cons, List.not_mem_nil, or_false] at hf
  rcases hf with rfl | rfl | rfl | rfl | rfl | rfl | rfl | rfl | rfl | rfl <;> rfl

lemma mem_recordsFromItems (ph : String) (items : List PyVal) (r : CourseRecord)
    (hr : r ∈ recordsFromItems ph items) :
    ∃ kvs, r = _apply_placeholder ph kvs := by
  unfold recordsFromItems at hr
  rw [List.mem_filterMap] at hr
  obtain ⟨v, -, hv⟩ := hr
  cases v with
  | pdict kvs => exact ⟨kvs, by simpa using hv.symm⟩
  | pnull => simp at hv
  | pbool b => simp at hv
  | pint n => simp at hv
  | pstr s => simp at hv
  | plist xs => simp at hv

/-! ## Claims about the Normalizer (`CourseParser`) -/

/-- C1: for an input string that is not valid JSON (`none`), and for a
parsed value that is neither a JSON object nor an array,
`CourseParser.parse_payload` returns an empty record list; malformed
external input is skipped, never propagated (the function is total). -/
theorem parse_payload_malformed_safe (ph : String) (v : PyVal)
    (hd : ∀ kvs, v ≠ PyVal.pdict kvs) (hl : ∀ xs, v ≠ PyVal.plist xs) :
    parse_payload ph none = [] ∧ parse_payload ph (some v) = [] := by
  refine ⟨rfl, ?_⟩
  cases v with
  | pdict kvs => exact absurd rfl (hd kvs)
  | plist xs => exact absurd rfl (hl xs)
  | pnull => rfl
  | pbool b => rfl
  | pint n => rfl
  | pstr s => rfl

/-- C1 witness: instantiated at the default placeholder and the JSON
scalar `6`. -/
theorem parse_payload_malformed_safe_witness :
    parse_payload "Not specified" none = [] ∧
    parse_payload "Not specified" (some (.pint 6)) = [] :=
  parse_payload_malformed_safe "Not specified" (.pint 6)
    (fun _ h => nomatch h) (fun _ h => nomatch h)

/-- C2: per-field coercion of the Normalizer — `null`/absent gives an
empty string and hence the placeholder, a numeric value its string form,
a string its trim (placeholder when blank), any other value its string
representation; and the payload
`{"code":"COMP1511","title":"Intro","uoc":6}` with placeholder
`"Not specified"` yields `uoc = "6"` and `overview = "Not specified"`. -/
theorem coercion_and_placeholder (ph : String) (kvs : List (String × PyVal))
    (f : String) (hf : f ∈ fieldOrder) :
    ((dget kvs f = none ∨ dget kvs f = some .pnull) →
       getField (_apply_placeholder ph kvs) f = ph)
  ∧ (∀ n : Int, dget kvs f = some (.pint n) →
       getField (_apply_placeholder ph kvs) f = toString n)
  ∧ (∀ s : String, dget kvs f = some (.pstr s) →
       getField (_apply_placeholder ph kvs) f =
         if pyStrip s = "" then ph else pyStrip s)
  ∧ (∀ xs, dget kvs f = some (.plist xs) →
       getField (_apply_placeholder ph kvs) f = pyRepr (.plist xs))
  ∧ (∀ kv2, dget kvs f = some (.pdict kv2) →
       getField (_apply_placeholder ph kvs) f = pyRepr (.pdict kv2))
  ∧ (parse_payload "Not specified"
       (some (.pdict [("code", .pstr "COMP1511"), ("title", .pstr "Intro"),
                      ("uoc", .pint 6)]))).map (fun r => (r.uoc, r.overview))
      = [("6", "Not specified")] := by
  refine ⟨?_, ?_, ?_, ?_, ?_, by decide⟩
  · intro h
    rw [getField_apply ph kvs f hf]
    rcases h with h | h <;> simp [fillField, h, _coerce_to_string]
  · intro n h
    rw [getField_apply ph kvs f hf]
    simp [fillField, h, _coerce_to_string, toString_int_ne_empty n]
  · intro s h
    rw [getField_apply ph kvs f hf]
    simp [fillField, h, _coerce_to_string]
  · intro xs h
    rw [getField_apply ph kvs f hf]
    simp [fillField, h, _coerce_to_string, pyRepr_plist_ne_empty xs]
  · intro kv2 h
    rw [getField_apply ph kvs f hf]
    simp [fillField, h, _coerce_to_string, pyRepr_pdict_ne_empty kv2]

/-- C2 witness: the numeric branch at `uoc = 6` and the absent branch at
`overview`, with the default placeholder. -/
theorem coercion_and_placeholder_witness :
    getField (_apply_placeholder "Not specified" [("uoc", PyVal.pint 6)]) "uoc"
      = toString (6 : Int)
  ∧ getField (_apply_placeholder "Not specified" [("uoc", PyVal.pint 6)]) "overview"
      = "Not specified" :=
  ⟨(coercion_and_placeholder "Not specified" [("uoc", .pint 6)] "uoc"
      (by decide)).2.1 6 rfl,
   (coercion_and_placeholder "Not specified" [("uoc", .pint 6)] "overview"
      (by decide)).1 (Or.inl rfl)⟩

/-- C3: every record returned by `parse_payload` has all ten fields
non-empty — each is either the (non-empty) configured placeholder or the
non-empty coercion of an extracted value. -/
theorem record_fields_nonempty (ph : String) (hph : ph ≠ "")
    (raw : Option PyVal) (r : CourseRecord) (hr : r ∈ parse_payload ph raw)
    (f : String) (hf : f ∈ fieldOrder) :
    getField r f ≠ "" ∧
    (getField r f = ph ∨ ∃ v : PyVal, getField r f = _coerce_to_string v) := by
  have hkvs : ∃ kvs, r = _apply_placeholder ph kvs := by
    match raw with
    | none => simp [parse_payload] at hr
    | some (.pdict kvs) => exact mem_recordsFromItems ph [.pdict kvs] r hr
    | some (.plist xs) => exact mem_recordsFromItems ph xs r hr
    | some .pnull => simp [parse_payload] at hr
    | some (.pbool b) => simp [parse_payload] at hr
    | some (.pint n) => simp [parse_payload] at hr
    | some (.pstr s) => simp [parse_payload] at hr
  obtain ⟨kvs, rfl⟩ := hkvs
  rw [getField_apply ph kvs f hf]
  by_cases h : _coerce_to_string ((dget kvs f).getD .pnull) = ""
  · refine ⟨by simp [fillField, h, hph], Or.inl (by simp [fillField, h])⟩
  · refine ⟨by simp [fillField, h], Or.inr ⟨(dget kvs f).getD .pnull, by simp [fillField, h]⟩⟩

/-- C3 witness: the scenario record, at field `uoc`. -/
theorem record_fields_nonempty_witness :
    getField sampleRecord "uoc" ≠ "" ∧
    (getField sampleRecord "uoc" = "Not specified" ∨
     ∃ v : PyVal, getField sampleRecord "uoc" = _coerce_to_string v) :=
  record_fields_nonempty "Not specified" (by decide)
    (some (.pdict [])) sampleRecord (by decide) "uoc" (by decide)

/-- C10: a JSON boolean field takes the numeric coercion branch (Python
`bool` is an `int`), so the field becomes the non-empty string `"True"`
or `"False"` and is never replaced by the placeholder. -/
theorem bool_coerced_via_numeric_branch (ph : String)
    (kvs : List (String × PyVal)) (f : String) (hf : f ∈ fieldOrder)
    (b : Bool) (hb : dget kvs f = some (.pbool b)) :
    getField (_apply_placeholder ph kvs) f = (if b then "True" else "False")
  ∧ getField (_apply_placeholder ph kvs) f ≠ "" := by
  rw [getField_apply ph kvs f hf]
  cases b <;> simp [fillField, hb, _coerce_to_string]

/-- C10 witness: boolean `true` in field `uoc`. -/
theorem bool_coerced_via_numeric_branch_witness :
    getField (_apply_placeholder "Not specified" [("uoc", PyVal.pbool true)]) "uoc"
      = "True"
  ∧ getField (_apply_placeholder "Not specified" [("uoc", PyVal.pbool true)]) "uoc"
      ≠ "" := by
  have h := bool_coerced_via_numeric_branch "Not specified"
    [("uoc", PyVal.pbool true)] "uoc" (by decide) true rfl
  simpa using h

/-! ## Claims about the course-code loader (`CourseList.from_json`) -/

lemma cleanLoop_eq (xs : List PyVal) : ∀ acc : List String,
    cleanLoop acc xs = acc ++ (firstDedup (goodCodes xs)).filter (fun u => u ∉ acc) := by
  induction xs with
  | nil => intro acc; simp [cleanLoop, goodCodes, firstDedup]
  | cons v vs ih =>
    intro acc
    cases v with
    | pstr s =>
      by_cases hb : pyStrip s = ""
      · rw [show cleanLoop acc (.pstr s :: vs) = cleanLoop acc vs from by
            simp [cleanLoop, hb]]
        rw [show goodCodes (.pstr s :: vs) = goodCodes vs from by
            simp [goodCodes, List.filterMap_cons, hb]]
        exact ih acc
      · rw [show goodCodes (.pstr s :: vs) = normCode s :: goodCodes vs from by
            simp [goodCodes, List.filterMap_cons, hb]]
        rw [firstDedup]
        by_cases hm : normCode s ∈ acc
        · rw [show cleanLoop acc (.pstr s :: vs) = cleanLoop acc vs from by
              simp [cleanLoop, hb, hm]]
          rw [ih acc]
          rw [List.filter_cons_of_neg (by simpa using hm)]
          rw [List.filter_filter]
          congr 1
          refine (List.filter_congr fun a _ => ?_).symm
          by_cases h2 : a ∈ acc
          · simp [h2]
          · have : a ≠ normCode s := fun he => h2 (he ▸ hm)
            simp [h2, this]
        · rw [show cleanLoop acc (.pstr s :: vs) =
              cleanLoop (acc ++ [normCode s]) vs from by simp [cleanLoop, hb, hm]]
          rw [ih (acc ++ [normCode s])]
          rw [List.filter_cons_of_pos (by simpa using hm)]
          rw [List.append_assoc, List.singleton_append]
          congr 2
          rw [List.filter_filter]
          refine List.filter_congr fun a _ => ?_
          by_cases h1 : a = normCode s
          · subst h1; simp [hm]
          · by_cases h2 : a ∈ acc <;> simp [h1, h2, List.mem_append]
    | pnull =>
      rw [show cleanLoop acc (.pnull :: vs) = cleanLoop acc vs from by simp [cleanLoop]]
      rw [show goodCodes (.pnull :: vs) = goodCodes vs from by
          simp [goodCodes, List.filterMap_cons]]
      exact ih acc
    | pbool b =>
      rw [show cleanLoop acc (.pbool b :: vs) = cleanLoop acc vs from by simp [cleanLoop]]
      rw [show goodCodes (.pbool b :: vs) = goodCodes vs from by
          simp [goodCodes, List.filterMap_cons]]
      exact ih acc
    | pint n =>
      rw [show cleanLoop acc (.pint n :: vs) = cleanLoop acc vs from by simp [cleanLoop]]
      rw [show goodCodes (.pint n :: vs) = goodCodes vs from by
          simp [goodCodes, List.filterMap_cons]]
      exact ih acc
    | plist l =>
      rw [show cleanLoop acc (.plist l :: vs) = cleanLoop acc vs from by simp [cleanLoop]]
      rw [show goodCodes (.plist l :: vs) = goodCodes vs from by
          simp [goodCodes, List.filterMap_cons]]
      exact ih acc
    | pdict kv =>
      rw [show cleanLoop acc (.pdict kv :: vs) = cleanLoop acc vs from by simp [cleanLoop]]
      rw [show goodCodes (.pdict kv :: vs) = goodCodes vs from by
          simp [goodCodes, List.filterMap_cons]]
      exact ih acc

lemma cleanLoop_nil_eq (l : List PyVal) :
    cleanLoop [] l = firstDedup (goodCodes l) := by
  rw [cleanLoop_eq]
  simp

lemma firstDedup_mem (u : String) (l : List String) :
    u ∈ firstDedup l ↔ u ∈ l := by
  induction l with
  | nil => simp [firstDedup]
  | cons x xs ih =>
    rw [firstDedup]
    simp only [List.mem_cons, List.mem_filter, ih]
    by_cases h : u = x <;> simp [h]

lemma firstDedup_nodup (l : List String) : (firstDedup l).Nodup := by
  induction l with
  | nil => simp [firstDedup]
  | cons x xs ih =>
    rw [firstDedup]
    refine List.nodup_cons.mpr ⟨?_, ih.filter _⟩
    intro hmem
    rcases List.mem_filter.mp hmem with ⟨-, hne⟩
    simp at hne

lemma firstDedup_eq_nil (l : List String) : firstDedup l = [] ↔ l = [] := by
  cases l <;> simp [firstDedup]

lemma from_json_pdict (kvs : List (String × PyVal)) :
    from_json (some (some (.pdict kvs))) =
      (match dget kvs "course_codes" with
       | some (.plist xs) =>
         if cleanLoop [] xs = [] then .error .validationError
         else .ok (cleanLoop [] xs)
       | some (.pdict kv2) =>
         if cleanLoop [] ((pyDictKeys kv2).map .pstr) = [] then .error .validationError
         else .ok (cleanLoop [] ((pyDictKeys kv2).map .pstr))
       | _ => .error .formatError) := rfl

/-- C4: on a valid course-list document (an object whose `course_codes`
is an array with at least one usable entry), `from_json` returns exactly
the first-occurrence deduplication of the trimmed, upper-cased surviving
entries — entries that are not non-blank strings are silently skipped —
so each unique normalised code appears exactly once (the list has no
duplicates and contains precisely the normalised survivors), in
first-seen order; the spec scenario evaluates as stated. -/
theorem from_json_normalizes_and_dedups (xs : List PyVal)
    (h : goodCodes xs ≠ []) :
    from_json (some (some (.pdict [("course_codes", .plist xs)]))) =
      .ok (firstDedup (goodCodes xs))
  ∧ (firstDedup (goodCodes xs)).Nodup
  ∧ (∀ u, u ∈ firstDedup (goodCodes xs) ↔ u ∈ goodCodes xs)
  ∧ from_json (some (some (.pdict [("course_codes",
       .plist [.pstr "comp1511", .pstr "COMP1511", .pstr " comp2521 "])]))) =
      .ok ["COMP1511", "COMP2521"] := by
  refine ⟨?_, firstDedup_nodup _, fun u => firstDedup_mem u _, by rfl⟩
  rw [from_json_pdict]
  have hd : dget [("course_codes", PyVal.plist xs)] "course_codes" =
      some (.plist xs) := rfl
  rw [hd]
  simp only [cleanLoop_nil_eq]
  rw [if_neg fun hnil => h ((firstDedup_eq_nil _).mp hnil)]

/-- C4 witness: the spec scenario input, which has usable codes. -/
theorem from_json_normalizes_and_dedups_witness :
    from_json (some (some (.pdict [("course_codes",
      .plist [.pstr "comp1511", .pstr "COMP1511", .pstr " comp2521 "])]))) =
    .ok ["COMP1511", "COMP2521"] :=
  (from_json_normalizes_and_dedups
    [.pstr "comp1511", .pstr "COMP1511", .pstr " comp2521 "] (by decide)).2.2.2

/-- C5 counterexample: a document whose top level is a JSON array — "any
other top-level shape" in the claim — does not fail with a FormatError:
`payload.get("course_codes")` raises an uncaught `AttributeError`. -/
theorem from_json_nondict_not_formatError :
    from_json (some (some (.plist [.pstr "COMP1511"]))) = .error .attrError
  ∧ (Except.error .attrError : Except LoadErr (List String)) ≠
      .error .formatError :=
  ⟨rfl, by simp⟩

/-- C5 amended: `from_json` fails with NotFoundError when the file is
absent and ParseError when the content is not valid JSON; when the
document is a JSON object, it fails with FormatError exactly when
`course_codes` is absent or is a value that is not iterable (null,
number, boolean) or is a string, while a list — or a dict, iterated by
its keys — is accepted and filtered, failing with ValidationError when
zero usable codes remain; when the document's top level is not a JSON
object, the code instead raises an uncaught AttributeError. -/
theorem from_json_error_taxonomy :
    from_json none = .error .notFound
  ∧ from_json (some none) = .error .parseError
  ∧ (∀ v : PyVal, (∀ kvs, v ≠ .pdict kvs) →
       from_json (some (some v)) = .error .attrError)
  ∧ (∀ kvs : List (String × PyVal),
       (∀ xs, dget kvs "course_codes" ≠ some (.plist xs)) →
       (∀ kv2, dget kvs "course_codes" ≠ some (.pdict kv2)) →
       from_json (some (some (.pdict kvs))) = .error .formatError)
  ∧ (∀ kvs xs, dget kvs "course_codes" = some (.plist xs) →
       from_json (some (some (.pdict kvs))) =
         (if goodCodes xs = [] then .error .validationError
          else .ok (firstDedup (goodCodes xs))))
  ∧ (∀ kvs kv2, dget kvs "course_codes" = some (.pdict kv2) →
       from_json (some (some (.pdict kvs))) =
         (if goodCodes ((pyDictKeys kv2).map .pstr) = []
          then .error .validationError
          else .ok (firstDedup (goodCodes ((pyDictKeys kv2).map .pstr))))) := by
  refine ⟨rfl, rfl, ?_, ?_, ?_, ?_⟩
  · intro v hv
    cases v with
    | pdict kvs => exact absurd rfl (hv kvs)
    | pnull => rfl
    | pbool b => rfl
    | pint n => rfl
    | pstr s => rfl
    | plist xs => rfl
  · intro kvs h1 h2
    rw [from_json_pdict]
    rcases hd : dget kvs "course_codes" with - | v
    · rfl
    · cases v with
      | plist xs => exact absurd hd (h1 xs)
      | pdict kv2 => exact absurd hd (h2 kv2)
      | pnull => rfl
      | pbool b => rfl
      | pint n => rfl
      | pstr s => rfl
  · intro kvs xs hd
    rw [from_json_pdict, hd]
    simp only [cleanLoop_nil_eq]
    by_cases hg : goodCodes xs = []
    · rw [if_pos ((firstDedup_eq_nil _).mpr hg), if_pos hg]
    · rw [if_neg fun hnil => hg ((firstDedup_eq_nil _).mp hnil), if_neg hg]
  · intro kvs kv2 hd
    rw [from_json_pdict, hd]
    simp only [cleanLoop_nil_eq]
    by_cases hg : goodCodes ((pyDictKeys kv2).map .pstr) = []
    · rw [if_pos ((firstDedup_eq_nil _).mpr hg), if_pos hg]
    · rw [if_neg fun hnil => hg ((firstDedup_eq_nil _).mp hnil), if_neg hg]

/-- C5 witness: the amended taxonomy at concrete inputs — a top-level
array raises `AttributeError`; `course_codes: null` is a FormatError;
`course_codes: []` is a ValidationError. -/
theorem from_json_error_taxonomy_witness :
    from_json (some (some (.plist []))) = .error .attrError
  ∧ from_json (some (some (.pdict [("course_codes", .pnull)]))) =
      .error .formatError
  ∧ from_json (some (some (.pdict [("course_codes", .plist [])]))) =
      .error .validationError :=
  ⟨from_json_error_taxonomy.2.2.1 (.plist []) (fun _ h => nomatch h),
   from_json_error_taxonomy.2.2.2.1 [("course_codes", .pnull)]
     (fun xs h => by simp [dget] at h) (fun kv2 h => by simp [dget] at h),
   by
     have h := from_json_error_taxonomy.2.2.2.2.1 [("course_codes", .plist [])]
       [] rfl
     simpa using h⟩

/-! ## Claims about the writer (`CourseWriter`) -/

lemma report_fields_mem (records : List CourseRecord) (hne : records ≠ [])
    (k : String) (s : FieldStat)
    (hmem : (k, s) ∈ (build_completeness_report records).fields) :
    k ∈ fieldOrder ∧
    s = ⟨countPresent records k, records.length - countPresent records k,
         pyRound1 ((countPresent records k : ℚ) / (records.length : ℚ) * 100)⟩ := by
  have hne0 : ¬ records.length = 0 := by
    simpa [List.length_eq_zero] using hne
  simp only [build_completeness_report, if_neg hne0] at hmem
  simp only [List.mem_map] at hmem
  obtain ⟨key, hkey, heq⟩ := hmem
  rw [Prod.mk.injEq] at heq
  obtain ⟨rfl, rfl⟩ := heq
  exact ⟨hkey, rfl⟩

/-- C6: the completeness report yields total 0 and no per-field entries
on an empty batch; on a non-empty batch the per-field entries are in the
fixed schema order, and every entry satisfies
`present + missing = total` and
`percent_present = round(100 * present / total, 1)`. -/
theorem completeness_report_sound :
    build_completeness_report [] = ⟨0, []⟩
  ∧ (∀ records : List CourseRecord, records ≠ [] →
       (build_completeness_report records).total_courses = records.length
     ∧ (build_completeness_report records).fields.map Prod.fst = fieldOrder
     ∧ (∀ k s, (k, s) ∈ (build_completeness_report records).fields →
          s.present + s.missing = records.length
        ∧ s.percent_present =
            pyRound1 ((s.present : ℚ) / (records.length : ℚ) * 100))) := by
  refine ⟨rfl, fun records hne => ?_⟩
  have hne0 : ¬ records.length = 0 := by
    simpa [List.length_eq_zero] using hne
  refine ⟨by simp [build_completeness_report, hne0], ?_, ?_⟩
  · simp only [build_completeness_report, if_neg hne0, List.map_map]
    rfl
  · intro k s hmem
    obtain ⟨-, rfl⟩ := report_fields_mem records hne k s hmem
    have hle : countPresent records k ≤ records.length :=
      List.length_filter_le _ _
    refine ⟨?_, rfl⟩
    show countPresent records k + (records.length - countPresent records k) =
      records.length
    omega

/-- C6 witness: a one-record batch. -/
theorem completeness_report_sound_witness :
    (build_completeness_report [sampleRecord]).total_courses = 1
  ∧ (build_completeness_report [sampleRecord]).fields.map Prod.fst = fieldOrder :=
  ⟨(completeness_report_sound.2 [sampleRecord] (by simp)).1,
   (completeness_report_sound.2 [sampleRecord] (by simp)).2.1⟩

/-- C7 counterexample: in a batch of one record whose `overview` field
equals the placeholder text `"Not specified"`, the report counts that
field as present (`present = 1`), whereas the claim requires
placeholder-valued fields not to be counted (`present = 0`). -/
theorem report_counts_placeholder_as_present :
    sampleRecord.overview = "Not specified"
  ∧ ((build_completeness_report [sampleRecord]).fields.lookup "overview").map
      FieldStat.present = some 1
  ∧ (1 : Nat) ≠ 0 := by
  refine ⟨rfl, by decide, by decide⟩

/-- C7 amended: the report's `present` count for a field is exactly the
number of records whose field text is non-blank, regardless of whether it
equals the placeholder — in particular any record whose field holds
non-blank placeholder text is counted as present. -/
theorem report_presence_is_nonblank (records : List CourseRecord)
    (hne : records ≠ []) (k : String) (s : FieldStat)
    (hmem : (k, s) ∈ (build_completeness_report records).fields) :
    s.present = (records.filter (fun r => pyStrip (getField r k) ≠ "")).length
  ∧ (∀ ph r, r ∈ records → getField r k = ph → pyStrip ph ≠ "" →
       0 < s.present) := by
  obtain ⟨-, rfl⟩ := report_fields_mem records hne k s hmem
  refine ⟨rfl, ?_⟩
  intro ph r hr hf hph
  have hmemf : r ∈ records.filter (fun r => pyStrip (getField r k) ≠ "") :=
    List.mem_filter.mpr ⟨hr, by simp [hf, hph]⟩
  exact List.length_pos.mpr (List.ne_nil_of_mem hmemf)

/-- C7 amended witness: the single placeholder-filled record is counted
present in `overview`. -/
theorem report_presence_is_nonblank_witness :
    (⟨1, 0, pyRound1 ((1 : ℕ) / ((1 : ℕ) : ℚ) * 100)⟩ : FieldStat).present =
      ([sampleRecord].filter (fun r => pyStrip (getField r "overview") ≠ "")).length
  ∧ 0 < (⟨1, 0, pyRound1 ((1 : ℕ) / ((1 : ℕ) : ℚ) * 100)⟩ : FieldStat).present := by
  have hfields : (build_completeness_report [sampleRecord]).fields =
      fieldOrder.map (fun key => (key,
        ⟨countPresent [sampleRecord] key, 1 - countPresent [sampleRecord] key,
         pyRound1 ((countPresent [sampleRecord] key : ℚ) / (([sampleRecord].length : ℕ) : ℚ) * 100)⟩)) :=
    rfl
  have hmem : ("overview",
      (⟨1, 0, pyRound1 ((1 : ℕ) / ((1 : ℕ) : ℚ) * 100)⟩ : FieldStat)) ∈
      (build_completeness_report [sampleRecord]).fields := by
    rw [hfields]
    exact List.mem_map.mpr ⟨"overview", by decide, rfl⟩
  have h := report_presence_is_nonblank [sampleRecord] (by simp) "overview"
    ⟨1, 0, pyRound1 ((1 : ℕ) / ((1 : ℕ) : ℚ) * 100)⟩ hmem
  exact ⟨h.1, h.2 "Not specified" sampleRecord (by simp) rfl (by decide)⟩

/-- C8: `write_csv` fails on an empty batch before touching the
filesystem (the model produces no output), and on a non-empty batch
returns the destination path together with one header row in the fixed
field order followed by one row per record, in input order, each row the
record's field values. -/
theorem write_csv_contract (dest : String) :
    write_csv [] dest = .error "No course records were provided for export"
  ∧ (∀ records : List CourseRecord, records ≠ [] →
       write_csv records dest =
         .ok (dest, fieldOrder ::
           records.map (fun r => fieldOrder.map (getField r)))
     ∧ (fieldOrder :: records.map (fun r => fieldOrder.map (getField r))).length
         = records.length + 1) := by
  exact ⟨rfl, fun records hne => ⟨by simp [write_csv, hne], by simp⟩⟩

/-- C8 witness: the empty batch fails, a one-record batch succeeds. -/
theorem write_csv_contract_witness :
    write_csv [] "out.csv" = .error "No course records were provided for export"
  ∧ write_csv [sampleRecord] "out.csv" =
      .ok ("out.csv", fieldOrder ::
        [sampleRecord].map (fun r => fieldOrder.map (getField r))) :=
  ⟨(write_csv_contract "out.csv").1,
   ((write_csv_contract "out.csv").2 [sampleRecord] (by simp)).1⟩

/-! ## Claims about the URL builder (`CourseList.build_urls`) -/

/-- Length of the fixed (non-code) part of a rendered template. -/
def fixedLen (t : List Seg) (lv yr : List Char) : Nat :=
  match t with
  | [] => 0
  | .lit s :: rest => s.length + fixedLen rest lv yr
  | .level :: rest => lv.length + fixedLen rest lv yr
  | .year :: rest => yr.length + fixedLen rest lv yr
  | .code :: rest => fixedLen rest lv yr

lemma renderTemplate_length (t : List Seg) (lv yr c : List Char) :
    (renderTemplate t lv yr c).length =
      fixedLen t lv yr + t.count Seg.code * c.length := by
  induction t with
  | nil => simp [renderTemplate, fixedLen]
  | cons sg rest ih =>
    cases sg with
    | lit s =>
      simp only [renderTemplate, fixedLen, List.length_append, ih,
        List.count_cons]
      simp
      omega
    | level =>
      simp only [renderTemplate, fixedLen, List.length_append, ih,
        List.count_cons]
      simp
      omega
    | year =>
      simp only [renderTemplate, fixedLen, List.length_append, ih,
        List.count_cons]
      simp
      omega
    | code =>
      simp only [renderTemplate, fixedLen, List.length_append, ih,
        List.count_cons]
      simp [Nat.succ_mul]
      omega

lemma renderTemplate_inj_aux (lv yr : List Char) :
    ∀ (t : List Seg) (c1 c2 : List Char), c1.length = c2.length →
      Seg.code ∈ t →
      renderTemplate t lv yr c1 = renderTemplate t lv yr c2 → c1 = c2 := by
  intro t
  induction t with
  | nil => intro c1 c2 _ hmem; simp at hmem
  | cons sg rest ih =>
    intro c1 c2 hlen hmem heq
    cases sg with
    | lit s =>
      have hmem2 : Seg.code ∈ rest := by simpa using hmem
      exact ih c1 c2 hlen hmem2 (List.append_cancel_left heq)
    | level =>
      have hmem2 : Seg.code ∈ rest := by simpa using hmem
      exact ih c1 c2 hlen hmem2 (List.append_cancel_left heq)
    | year =>
      have hmem2 : Seg.code ∈ rest := by simpa using hmem
      exact ih c1 c2 hlen hmem2 (List.append_cancel_left heq)
    | code =>
      exact (List.append_inj heq hlen).1

/-- C9 counterexample: with a template that does not reference the code
placeholder, two distinct codes render to the same URL, so substitution
is not injective for every template. -/
theorem build_urls_constant_template :
    build_urls [Seg.lit ['x']] [] [] [['A'], ['B']] = [['x'], ['x']]
  ∧ (['A'] : List Char) ≠ ['B'] := by
  exact ⟨rfl, by decide⟩

/-- C9 amended: `build_urls` always returns exactly one URL per input
code, in code-list order (it is the map of the template renderer over the
code list); substitution is injective — distinct codes produce distinct
URLs — provided the template references the `code` placeholder at least
once. -/
theorem build_urls_props (t : List Seg) (lv yr : List Char)
    (codes : List (List Char)) :
    (build_urls t lv yr codes).length = codes.length
  ∧ build_urls t lv yr codes = codes.map (renderTemplate t lv yr)
  ∧ (Seg.code ∈ t → ∀ c1 c2 : List Char,
       renderTemplate t lv yr c1 = renderTemplate t lv yr c2 → c1 = c2) := by
  refine ⟨by simp [build_urls], rfl, ?_⟩
  intro hmem c1 c2 heq
  have hcnt : 0 < t.count Seg.code := List.count_pos_iff.mpr hmem
  have hlen : c1.length = c2.length := by
    have h1 := renderTemplate_length t lv yr c1
    have h2 := renderTemplate_length t lv yr c2
    rw [heq] at h1
    have := h1.symm.trans h2
    have hk : t.count Seg.code * c1.length = t.count Seg.code * c2.length := by
      omega
    exact Nat.eq_of_mul_eq_mul_left hcnt hk
  exact renderTemplate_inj_aux lv yr t c1 c2 hlen hmem heq

/-- C9 witness: a template consisting of just the code placeholder, on a
two-code list. -/
theorem build_urls_props_witness :
    (build_urls [Seg.code] [] [] [['A'], ['B']]).length = 2
  ∧ (['A'] : List Char) = ['A'] :=
  ⟨(build_urls_props [Seg.code] [] [] [['A'], ['B']]).1,
   (build_urls_props [Seg.code] [] [] [['A'], ['B']]).2.2 (by decide)
     ['A'] ['A'] rfl⟩
